import Mathlib

/-!
Verification development for the USPTO trademark-clearance scripts.

The definitions below are a shallow embedding of the conflict-detection
logic of `rapidapi_batchtrademarksearch.py`, `rapidapi_trademarksearch_byclass.py`,
`trademark_dashboard.py`, `trademark_dashboard_fixed.py` and `uspto_search.py`.
Provider HTTP responses are modelled as an inductive `Resp`/`BResp`
(success with a list of items, HTTP error code, or raised exception),
and the `rapidfuzz` metrics - an external library - are passed in as
function parameters, since only their combination (`max`) belongs to the
repository's own code.
-/

namespace Uspto

/-- Substring matching on character lists: `leadMatch n h` is true when the
needle `n` occurs at the very start of `h` (embeds the prefix test that
Python's `in` operator performs at each position). -/
def leadMatch : List Char → List Char → Bool
  | [], _ => true
  | _ :: _, [] => false
  | a :: as, b :: bs => a == b && leadMatch as bs

/-- `subMatch n h` is true when the needle `n` occurs contiguously anywhere in
`h`; this is Python's `needle in haystack` on strings. -/
def subMatch (needle : List Char) : List Char → Bool
  | [] => needle.isEmpty
  | b :: bs => leadMatch needle (b :: bs) || subMatch needle bs

/-- Python `needle in haystack` for strings. -/
def strHas (hay needle : String) : Bool := subMatch needle.data hay.data

/-- Python `str.lower()` (ASCII case folding, as the scripts use it). -/
def lowerStr (s : String) : String := ⟨s.data.map Char.toLower⟩

/-- ASCII whitespace, as stripped by `str.strip()`. -/
def isSpaceChar (c : Char) : Bool := c == ' ' || c == '\t' || c == '\n' || c == '\r'

/-- Python `str.strip()`: drop whitespace at both ends. -/
def trimStr (s : String) : String :=
  ⟨((s.data.dropWhile isSpaceChar).reverse.dropWhile isSpaceChar).reverse⟩

/-- One provider item: the ad-hoc JSON dictionary returned per mark, with
`Option` recording whether each key is present (Python `dict.get`). -/
structure Entry where
  keyword : Option String
  statusLabel : Option String
  serialNumber : Option String
  registrationNumber : Option String
  description : Option String
deriving DecidableEq

/-- A provider response for the class-aware script
(`rapidapi_trademarksearch_byclass.py`): HTTP 200 with items, a non-200
status code, or a raised exception caught by its `try/except`. -/
inductive Resp where
  | ok (items : List Entry)
  | err (code : Nat)
  | exn (msg : String)
deriving DecidableEq

/-- A provider response for the batch script
(`rapidapi_batchtrademarksearch.py`), which has no `try/except`:
HTTP 200 with items or a non-200 status code. -/
inductive BResp where
  | ok (items : List Entry)
  | err (code : Nat)
deriving DecidableEq

/-- `FUZZY_THRESHOLD = 75` (both scripts). -/
def FUZZY_THRESHOLD : Nat := 75

/-- `MAX_RESULTS_PER_SEARCH = 50` (`rapidapi_trademarksearch_byclass.py`). -/
def MAX_RESULTS_PER_SEARCH : Nat := 50

/-- `final_score = max(score_1, score_2, score_3)` (lines 85-88 of the batch
script and 213-216 of the class-aware script). -/
def final_score (s1 s2 s3 : Nat) : Nat := max s1 (max s2 s3)

/-- The similarity score of one candidate: the three `rapidfuzz` metrics are
applied to the case-folded target and mark text and combined by
`final_score`.  The metrics themselves are external library code and are
passed as parameters `m1 m2 m3`. -/
def score_candidate (m1 m2 m3 : String → String → Nat) (target mark : String) : Nat :=
  final_score (m1 (lowerStr target) (lowerStr mark))
    (m2 (lowerStr target) (lowerStr mark))
    (m3 (lowerStr target) (lowerStr mark))

/-- `target_classes` (class-aware script, lines 30-34): code and label. -/
def target_classes : List (String × String) :=
  [("35", "Advertising and Business Services"),
   ("41", "Education and Entertainment Services"),
   ("42", "Scientific and Technological Services")]

/-- The keys of `target_classes`, in dictionary order. -/
def target_class_keys : List String := target_classes.map (fun p => p.1)

/-- The explicit-mention pass of `extract_classes_from_description`
(lines 49-52): a class code is collected when `"class {code}"` or
`"international class {code}"` occurs in the lower-cased description. -/
def explicit_classes (description : String) : List String :=
  target_class_keys.filter (fun c =>
    strHas (lowerStr description) ("class " ++ c) ||
    strHas (lowerStr description) ("international class " ++ c))

/-- The word lists of the positional heuristic (lines 56, 59, 62). -/
def words35 : List String := ["advertising", "business", "management", "consultancy", "marketing"]

/-- Word group mapped to class 41. -/
def words41 : List String := ["education", "training", "entertainment", "teaching", "workshop", "seminar"]

/-- Word group mapped to class 42. -/
def words42 : List String := ["technology", "software", "computer", "research", "scientific", "development"]

/-- Append class code `c` when `cond` holds and `c` is not already present -
one `if any(...): if c not in classes: classes.append(c)` step of the
positional heuristic. -/
def addIf (cond : Bool) (c : String) (l : List String) : List String :=
  if cond && !l.contains c then l ++ [c] else l

/-- The positional pass on its own: the codes the "position 1" heuristic can
contribute (empty when the marker is absent). -/
def positional_classes (description : String) : List String :=
  if strHas (lowerStr description) "position 1" then
    (if words35.any (fun w => strHas (lowerStr description) w) then ["35"] else []) ++
    (if words41.any (fun w => strHas (lowerStr description) w) then ["41"] else []) ++
    (if words42.any (fun w => strHas (lowerStr description) w) then ["42"] else [])
  else []

/-- `extract_classes_from_description` (class-aware script, lines 42-66):
explicit mentions first, then the "position 1" heuristic, each code added at
most once. -/
def extract_classes_from_description (description : String) : List String :=
  if description = "" then []
  else if strHas (lowerStr description) "position 1" then
    addIf (words42.any (fun w => strHas (lowerStr description) w)) "42"
      (addIf (words41.any (fun w => strHas (lowerStr description) w)) "41"
        (addIf (words35.any (fun w => strHas (lowerStr description) w)) "35"
          (explicit_classes description)))
  else explicit_classes description

/-- `any(cls in target_classes for cls in classes_found)` (lines 127, 224). -/
def relevant_class_match (classes_found : List String) : Bool :=
  classes_found.any (fun cls => target_class_keys.contains cls)

/-- The MEI-relevance keyword list of `is_related_to_mei` (lines 73-77). -/
def relevant_terms : List String :=
  ["mobile", "intent", "ai", "artificial intelligence", "machine learning",
   "technology", "transformation", "digital", "consulting", "education",
   "training", "smart", "intelligent", "learning", "prediction"]

/-- `is_related_to_mei` (class-aware script, lines 69-83). -/
def is_related_to_mei (description : String) : Bool :=
  if description = "" then false
  else relevant_terms.any (fun term => strHas (lowerStr description) term)

/-- One scored and classified candidate of the class-aware script: the
9-tuple appended to `fuzzy_all` (lines 227-237). -/
structure Match where
  mark : String
  score : Nat
  status : String
  serial : String
  reg : String
  classesFound : List String
  relevantClass : Bool
  meiRelated : Bool
  description : String
deriving DecidableEq

/-- One scored candidate of the batch script: the 4-tuple appended to
`fuzzy_all` (line 89). -/
structure BMatch where
  mark : String
  score : Nat
  status : String
  serial : String
deriving DecidableEq

/-- `int(bool)` as Python computes it inside the sort key. -/
def natOfBool (b : Bool) : Nat := if b then 1 else 0

/-- Lexicographic comparison of `Nat` triples, as a `Bool`. -/
def le3 (x y : Nat × Nat × Nat) : Bool :=
  decide (x.1 < y.1) ||
    (decide (x.1 = y.1) &&
      (decide (x.2.1 < y.2.1) ||
        (decide (x.2.1 = y.2.1) && decide (x.2.2 ≤ y.2.2))))

/-- `keyRel f a b` holds when `a` may come no later than `b` under a
Python-style descending sort by the key triple `f`: that is, `f b ≤ f a`
lexicographically.  A stable sort under this relation is exactly
`list.sort(key=lambda x: (-k1, -k2, -k3))`. -/
def keyRel (f : α → Nat × Nat × Nat) (a b : α) : Prop := le3 (f b) (f a) = true

instance (f : α → Nat × Nat × Nat) : DecidableRel (keyRel f) :=
  fun a b => instDecidableEqBool (le3 (f b) (f a)) true

instance (f : α → Nat × Nat × Nat) : IsTotal α (keyRel f) :=
  ⟨fun a b => by
    simp only [keyRel, le3, Bool.or_eq_true, Bool.and_eq_true, decide_eq_true_eq]
    omega⟩

instance (f : α → Nat × Nat × Nat) : IsTrans α (keyRel f) :=
  ⟨fun a b c hab hbc => by
    simp only [keyRel, le3, Bool.or_eq_true, Bool.and_eq_true, decide_eq_true_eq] at hab hbc ⊢
    omega⟩

/-- The composite sort key of the class-aware script's
`fuzzy_hits.sort(key=lambda x: (-x[1], -int(x[6]), -int(x[7])))` (line 242):
score, relevant-class flag, MEI-relatedness flag. -/
def compositeKey (m : Match) : Nat × Nat × Nat :=
  (m.score, natOfBool m.relevantClass, natOfBool m.meiRelated)

/-- The score-only key of `sorted(fuzzy_all, key=lambda x: -x[1])`. -/
def scoreKey (m : Match) : Nat × Nat × Nat := (m.score, 0, 0)

/-- Score-only key for batch-script matches. -/
def scoreKeyB (m : BMatch) : Nat × Nat × Nat := (m.score, 0, 0)

/-- Deduplication by a string key with a `seen` set, first occurrence kept:
the `for match in ...: if match[0] not in seen` loops of both scripts. -/
def dedupBy (mk : α → String) : List α → List String → List α
  | [], _ => []
  | x :: rest, seen =>
    if seen.contains (mk x) then dedupBy mk rest seen
    else x :: dedupBy mk rest (mk x :: seen)

/-- The deduplicated hit list of the class-aware script: `fuzzy_hits` sorted
in place by the composite key (stable, like Python's `list.sort`), then
deduplicated by mark text with the first occurrence winning
(lines 242, 252-257). -/
def dedupedMatches (hits : List Match) : List Match :=
  dedupBy (fun m => m.mark) (List.insertionSort (keyRel compositeKey) hits) []

/-- The deduplicated hit list of the batch script: `sorted(fuzzy_hits,
key=lambda x: -x[1])` then first-wins dedup by mark (lines 100-105). -/
def dedupedMatchesB (hits : List BMatch) : List BMatch :=
  dedupBy (fun m => m.mark) (List.insertionSort (keyRel scoreKeyB) hits) []

/-- Whether a scored candidate is a fuzzy hit: `match[1] >= FUZZY_THRESHOLD`
(line 239 of the class-aware script, line 91 of the batch script). -/
def isHit (m : Match) : Bool := decide (FUZZY_THRESHOLD ≤ m.score)

/-- `fuzzy_hits = [match for match in fuzzy_all if match[1] >= FUZZY_THRESHOLD]`. -/
def fuzzyHitsOf (l : List Match) : List Match := l.filter isHit

/-- `top_matches = sorted(fuzzy_all, key=lambda x: -x[1])[:10]` (line 245). -/
def topMatchesOf (all : List Match) : List Match :=
  (List.insertionSort (keyRel scoreKey) all).take 10

/-- The top-K candidates that actually get an extra row: those whose mark is
not among the fuzzy hits' marks (`existing_keywords`, lines 290-292). -/
def topEmitted (all hits : List Match) : List Match :=
  (topMatchesOf all).filter (fun m => !((hits.map (fun h => h.mark)).contains m.mark))

/-- Build one `fuzzy_all` element of the class-aware script from a provider
item (lines 211-237). -/
def buildMatch (m1 m2 m3 : String → String → Nat) (target : String) (e : Entry) : Match :=
  let markName := e.keyword.getD ""
  let description := e.description.getD ""
  let classesFound := extract_classes_from_description description
  { mark := markName
    score := score_candidate m1 m2 m3 target markName
    status := e.statusLabel.getD ""
    serial := e.serialNumber.getD ""
    reg := e.registrationNumber.getD ""
    classesFound := classesFound
    relevantClass := relevant_class_match classesFound
    meiRelated := is_related_to_mei description
    description := description }

/-- Build one `fuzzy_all` element of the batch script from a provider item
(lines 83-89). -/
def buildBMatch (m1 m2 m3 : String → String → Nat) (target : String) (e : Entry) : BMatch :=
  let markName := e.keyword.getD ""
  { mark := markName
    score := score_candidate m1 m2 m3 target markName
    status := e.statusLabel.getD ""
    serial := e.serialNumber.getD "" }

/-- One CSV row of the class-aware script (11 columns, lines 88-93). -/
structure Row where
  target : String
  stem : String
  mark : String
  score : Nat
  label : String
  serial : String
  reg : String
  classInfo : String
  relevance : String
  meiRel : String
  descr : String
deriving DecidableEq

/-- One CSV row of the batch script (6 columns, line 30). -/
structure BRow where
  target : String
  stem : String
  mark : String
  score : Nat
  status : String
  serial : String
deriving DecidableEq

/-- `description[:200] + "..." if len(description) > 200 else description`
(exact-match loop of the class-aware script, line 149). -/
def truncateExact (s : String) : String :=
  if 200 < s.length then s.take 200 ++ "..." else s

/-- `match[8][:200] + "..." if match[8] and len(match[8]) > 200 else match[8]`
(fuzzy loops of the class-aware script, lines 267 and 296). -/
def truncateFuzzy (s : String) : String :=
  if !s.isEmpty && decide (200 < s.length) then s.take 200 ++ "..." else s

/-- One exact-match CSV row of the class-aware script, built from one
provider item (lines 120-150). -/
def exactRowByClass (target : String) (result : Entry) : Row :=
  let description := result.description.getD ""
  let classesFound := extract_classes_from_description description
  { target := target
    stem := "EXACT"
    mark := result.keyword.getD "— Exact match —"
    score := 100
    label := result.statusLabel.getD ""
    serial := result.serialNumber.getD ""
    reg := result.registrationNumber.getD ""
    classInfo := String.intercalate ", " classesFound
    relevance := if relevant_class_match classesFound then "Yes" else "No"
    meiRel := if is_related_to_mei description then "Yes" else "No"
    descr := truncateExact description }

/-- The rows the class-aware exact-match check writes for one target
(lines 112-174): one row per returned candidate, a no-match sentinel, an
API-error sentinel, or an exception sentinel. -/
def exactRowsByClass (target : String) (r : Resp) : List Row :=
  match r with
  | .ok [] =>
    [{ target := target, stem := "EXACT", mark := "— No matches —", score := 0,
       label := "", serial := "", reg := "", classInfo := "", relevance := "No",
       meiRel := "No", descr := "" }]
  | .ok items => items.map (exactRowByClass target)
  | .err code =>
    [{ target := target, stem := "EXACT", mark := "— API Error " ++ toString code ++ " —",
       score := 0, label := "", serial := "", reg := "", classInfo := "",
       relevance := "No", meiRel := "No", descr := "" }]
  | .exn msg =>
    [{ target := target, stem := "EXACT", mark := "— Error: " ++ msg ++ " —",
       score := 0, label := "", serial := "", reg := "", classInfo := "",
       relevance := "No", meiRel := "No", descr := "" }]

/-- The rows the batch exact-match check writes for one target
(lines 45-63): one row from the first candidate (`top = exact_results[0]`),
or a no-match sentinel, or an API-error sentinel. -/
def exactRowsBatch (target : String) (r : BResp) : List BRow :=
  match r with
  | .ok [] =>
    [{ target := target, stem := "EXACT", mark := "— No matches —", score := 0,
       status := "", serial := "" }]
  | .ok (top :: _) =>
    [{ target := target, stem := "EXACT", mark := top.keyword.getD "— Exact match —",
       score := 100, status := top.statusLabel.getD "", serial := top.serialNumber.getD "" }]
  | .err code =>
    [{ target := target, stem := "EXACT", mark := "— API Error " ++ toString code ++ " —",
       score := 0, status := "", serial := "" }]

/-- The exact-match loop of the batch script (lines 35-63): distinct target
names only (`checked_names`), one provider call each, in pair order. -/
def exactLoopBatchAux (provider : String → BResp) :
    List (String × String) → List String → List BRow
  | [], _ => []
  | (t, _) :: rest, checked =>
    if checked.contains t then exactLoopBatchAux provider rest checked
    else exactRowsBatch t (provider t) ++ exactLoopBatchAux provider rest (t :: checked)

/-- The whole batch exact-match phase over the search pairs. -/
def exactLoopBatch (provider : String → BResp) (pairs : List (String × String)) : List BRow :=
  exactLoopBatchAux provider pairs []

/-- `if results and len(results) > MAX_RESULTS_PER_SEARCH: results =
results[:MAX_RESULTS_PER_SEARCH]` (class-aware script, lines 193-195). -/
def limitResults (l : List Entry) : List Entry :=
  if !l.isEmpty && decide (MAX_RESULTS_PER_SEARCH < l.length) then
    l.take MAX_RESULTS_PER_SEARCH
  else l

/-- A deduplicated-hit CSV row of the class-aware fuzzy loop (lines 259-281). -/
def hitRowOf (t s : String) (m : Match) : Row :=
  { target := t, stem := s, mark := m.mark, score := m.score, label := m.status,
    serial := m.serial, reg := m.reg,
    classInfo := if m.classesFound.isEmpty then "None found"
      else String.intercalate ", " m.classesFound,
    relevance := if m.relevantClass then "Yes" else "No",
    meiRel := if m.meiRelated then "Yes" else "No",
    descr := truncateFuzzy m.description }

/-- A top-K CSV row of the class-aware fuzzy loop (lines 291-311): labelled
`Below Threshold` when under threshold, else its native status label. -/
def topRowOf (t s : String) (m : Match) : Row :=
  { target := t, stem := s, mark := m.mark, score := m.score,
    label := if m.score < FUZZY_THRESHOLD then "Below Threshold" else m.status,
    serial := m.serial, reg := m.reg,
    classInfo := if m.classesFound.isEmpty then "None found"
      else String.intercalate ", " m.classesFound,
    relevance := if m.relevantClass then "Yes" else "No",
    meiRel := if m.meiRelated then "Yes" else "No",
    descr := truncateFuzzy m.description }

/-- The class-aware fuzzy processing of one `(target, stem)` pair on an
HTTP 200 response (lines 188-311): truncate to `MAX_RESULTS_PER_SEARCH`,
score and classify every remaining item, write the deduplicated hits (or a
no-match sentinel), then the top-10 candidates whose mark was not among the
hits. -/
def stemRowsOk (m1 m2 m3 : String → String → Nat) (t s : String)
    (results : List Entry) : List Row :=
  let results := limitResults results
  if results.isEmpty then
    [{ target := t, stem := s, mark := "— No trademarks found —", score := 0,
       label := "", serial := "", reg := "", classInfo := "", relevance := "No",
       meiRel := "No", descr := "" }]
  else
    let fuzzyAll := results.map (buildMatch m1 m2 m3 t)
    let fuzzyHits := fuzzyHitsOf fuzzyAll
    let hitRows :=
      if fuzzyHits.isEmpty then
        [{ target := t, stem := s, mark := "— No matches —", score := 0,
           label := "", serial := "", reg := "", classInfo := "", relevance := "No",
           meiRel := "No", descr := "" }]
      else (dedupedMatches fuzzyHits).map (hitRowOf t s)
    hitRows ++ (topEmitted fuzzyAll fuzzyHits).map (topRowOf t s)

/-- The class-aware fuzzy processing of one pair over a full provider
response: a non-200 status or a caught exception writes no rows at all
(lines 312-316 only print to the console). -/
def stemRowsByClass (m1 m2 m3 : String → String → Nat) (t s : String)
    (r : Resp) : List Row :=
  match r with
  | .ok items => stemRowsOk m1 m2 m3 t s items
  | .err _ => []
  | .exn _ => []

/-- The batch fuzzy processing of one pair on an HTTP 200 response
(lines 70-118): no truncation, top-3 instead of top-10, no classification. -/
def stemRowsBatchOk (m1 m2 m3 : String → String → Nat) (t s : String)
    (results : List Entry) : List BRow :=
  if results.isEmpty then
    [{ target := t, stem := s, mark := "— No trademarks found —", score := 0,
       status := "", serial := "" }]
  else
    let fuzzyAll := results.map (buildBMatch m1 m2 m3 t)
    let fuzzyHits := fuzzyAll.filter (fun m => decide (FUZZY_THRESHOLD ≤ m.score))
    let topMatches := (List.insertionSort (keyRel scoreKeyB) fuzzyAll).take 3
    let hitRows :=
      if fuzzyHits.isEmpty then
        [{ target := t, stem := s, mark := "— No matches —", score := 0,
           status := "", serial := "" }]
      else (dedupedMatchesB fuzzyHits).map (fun m =>
        { target := t, stem := s, mark := m.mark, score := m.score,
          status := m.status, serial := m.serial })
    let existing := fuzzyHits.map (fun m => m.mark)
    hitRows ++ (topMatches.filter (fun m => !existing.contains m.mark)).map (fun m =>
      { target := t, stem := s, mark := m.mark, score := m.score,
        status := if m.score < FUZZY_THRESHOLD then "Below Threshold" else m.status,
        serial := m.serial })

/-- The batch fuzzy processing of one pair over a full provider response:
a non-200 status writes no rows at all (lines 119-121 only print). -/
def stemRowsBatch (m1 m2 m3 : String → String → Nat) (t s : String)
    (r : BResp) : List BRow :=
  match r with
  | .ok items => stemRowsBatchOk m1 m2 m3 t s items
  | .err _ => []

/-- The batch fuzzy loop over all search pairs, in order (lines 65-121);
each iteration is independent of the previous ones. -/
def stemLoopBatch (m1 m2 m3 : String → String → Nat) (provider : String → BResp) :
    List (String × String) → List BRow
  | [] => []
  | (t, s) :: rest =>
    stemRowsBatch m1 m2 m3 t s (provider s) ++ stemLoopBatch m1 m2 m3 provider rest

/-- One row of a persisted search CSV as the dashboards read it back:
the columns their verdict logic consults. -/
structure CsvRow where
  targetName : String
  searchStem : String
  matchedMark : String
  score : Nat
deriving DecidableEq

/-- The per-target verdict of `trademark_dashboard.py` (lines 22-40):
`Blocked` when any row of the EXACT section exists at all, else `Risk` when
any non-EXACT row has score ≥ 75, else `Clear`. -/
def verdict_orig (rows : List CsvRow) (name : String) : String :=
  let exactMatch := rows.any (fun r =>
    r.targetName == name && r.searchStem == "EXACT")
  let fuzzyHit := rows.any (fun r =>
    r.targetName == name && r.searchStem != "EXACT" && decide (75 ≤ r.score))
  if exactMatch then "❌ Blocked" else if fuzzyHit then "⚠️ Risk" else "✅ Clear"

/-- The per-target verdict of `trademark_dashboard_fixed.py` (lines 30-44):
stems are stripped and lower-cased; `has_exact` requires the matched mark to
differ from the `— No matches —` placeholder. -/
def verdict_fixed (rows : List CsvRow) (name : String) : String :=
  let hasExact := rows.any (fun r =>
    r.targetName == name && lowerStr (trimStr r.searchStem) == "exact" &&
      r.matchedMark != "— No matches —")
  let hasFuzzy := rows.any (fun r =>
    r.targetName == name && lowerStr (trimStr r.searchStem) != "exact" && decide (75 ≤ r.score))
  if hasExact then "❌ Blocked" else if hasFuzzy then "⚠️ Risk" else "✅ Clear"

/-- `le3` is reflexive. -/
theorem le3_refl (x : Nat × Nat × Nat) : le3 x x = true := by
  simp [le3]

/-- Everything surviving deduplication was in the input list. -/
theorem mem_of_mem_dedupBy (mk : α → String) :
    ∀ (l : List α) (seen : List String) (x : α), x ∈ dedupBy mk l seen → x ∈ l := by
  intro l
  induction l with
  | nil => intro seen x h; simp [dedupBy] at h
  | cons a t ih =>
    intro seen x h
    simp only [dedupBy] at h
    split at h
    · exact List.mem_cons_of_mem _ (ih seen x h)
    · rcases List.mem_cons.mp h with h1 | h2
      · exact h1 ▸ List.mem_cons_self a t
      · exact List.mem_cons_of_mem _ (ih _ x h2)

/-- No survivor's key string was in the `seen` set. -/
theorem dedupBy_not_seen (mk : α → String) :
    ∀ (l : List α) (seen : List String) (x : α), x ∈ dedupBy mk l seen → ¬ mk x ∈ seen := by
  intro l
  induction l with
  | nil => intro seen x h; simp [dedupBy] at h
  | cons a t ih =>
    intro seen x h
    simp only [dedupBy] at h
    split at h
    · exact ih seen x h
    · next hc =>
      rcases List.mem_cons.mp h with h1 | h2
      · subst h1
        intro hmem
        exact hc (List.elem_iff.mpr hmem)
      · intro hmem
        exact ih _ x h2 (List.mem_cons_of_mem _ hmem)

/-- Every input element whose key is not yet seen has a survivor with the
same key string. -/
theorem exists_dedupBy (mk : α → String) :
    ∀ (l : List α) (seen : List String) (e : α), e ∈ l → ¬ mk e ∈ seen →
      ∃ d, d ∈ dedupBy mk l seen ∧ mk d = mk e := by
  intro l
  induction l with
  | nil => intro seen e h; simp at h
  | cons a t ih =>
    intro seen e he hns
    simp only [dedupBy]
    split
    · next hc =>
      rcases List.mem_cons.mp he with h1 | h2
      · exact absurd (h1 ▸ List.elem_iff.mp hc) hns
      · exact ih seen e h2 hns
    · next hc =>
      rcases List.mem_cons.mp he with h1 | h2
      · exact ⟨a, List.mem_cons_self a _, h1 ▸ rfl⟩
      · by_cases hae : mk e = mk a
        · exact ⟨a, List.mem_cons_self a _, hae.symm⟩
        · have hns' : ¬ mk e ∈ (mk a :: seen) := by
            intro hmem
            rcases List.mem_cons.mp hmem with h | h
            · exact hae h
            · exact hns h
          obtain ⟨d, hd, hdk⟩ := ih (mk a :: seen) e h2 hns'
          exact ⟨d, List.mem_cons_of_mem _ hd, hdk⟩

/-- When the key string is already in `seen`, no survivor carries it. -/
theorem countP_dedupBy_zero (mk : α → String) (m : String) :
    ∀ (l : List α) (seen : List String), m ∈ seen →
      (dedupBy mk l seen).countP (fun d => mk d == m) = 0 := by
  intro l seen hm
  apply List.countP_eq_zero.mpr
  intro d hd
  have := dedupBy_not_seen mk l seen d hd
  simp only [beq_iff_eq]
  intro hdm
  exact this (hdm ▸ hm)

/-- When the key string occurs in the input and is not yet seen, exactly one
survivor carries it. -/
theorem countP_dedupBy_one (mk : α → String) (m : String) :
    ∀ (l : List α) (seen : List String), ¬ m ∈ seen → (∃ x, x ∈ l ∧ mk x = m) →
      (dedupBy mk l seen).countP (fun d => mk d == m) = 1 := by
  intro l
  induction l with
  | nil => intro seen hns h; simp at h
  | cons a t ih =>
    intro seen hns ⟨x, hx, hxm⟩
    simp only [dedupBy]
    split
    · next hc =>
      rcases List.mem_cons.mp hx with h1 | h2
      · exact absurd (hxm ▸ h1 ▸ List.elem_iff.mp hc) hns
      · exact ih seen hns ⟨x, h2, hxm⟩
    · next hc =>
      by_cases ham : mk a = m
      · rw [List.countP_cons_of_pos _ _ (by simpa using ham)]
        rw [countP_dedupBy_zero mk m t (mk a :: seen) (ham ▸ List.mem_cons_self _ _)]
      · rw [List.countP_cons_of_neg _ _ (by simpa using ham)]
        apply ih
        · intro hmem
          rcases List.mem_cons.mp hmem with h | h
          · exact ham h.symm
          · exact hns h
        · rcases List.mem_cons.mp hx with h1 | h2
          · exact absurd (h1 ▸ hxm) ham
          · exact ⟨x, h2, hxm⟩

/-- The survivors' key strings are pairwise distinct. -/
theorem dedupBy_keys_nodup (mk : α → String) :
    ∀ (l : List α) (seen : List String), ((dedupBy mk l seen).map mk).Nodup := by
  intro l
  induction l with
  | nil => intro seen; simp [dedupBy]
  | cons a t ih =>
    intro seen
    simp only [dedupBy]
    split
    · exact ih seen
    · simp only [List.map_cons, List.nodup_cons]
      refine ⟨?_, ih (mk a :: seen)⟩
      intro hmem
      obtain ⟨d, hd, hdk⟩ := List.mem_map.mp hmem
      exact dedupBy_not_seen mk t (mk a :: seen) d hd (hdk ▸ List.mem_cons_self _ _)

/-- On a list sorted descending by the key triple `f`, every survivor's key
triple dominates the key triple of each input element sharing its string. -/
theorem dedupBy_dominates (mk : α → String) (f : α → Nat × Nat × Nat) :
    ∀ (l : List α) (seen : List String) (d x : α),
      List.Sorted (keyRel f) l → d ∈ dedupBy mk l seen → x ∈ l → mk x = mk d →
      le3 (f x) (f d) = true := by
  intro l
  induction l with
  | nil => intro seen d x _ _ hx; simp at hx
  | cons a t ih =>
    intro seen d x hs hd hx hk
    have hs' := List.sorted_cons.mp hs
    simp only [dedupBy] at hd
    split at hd
    · next hc =>
      rcases List.mem_cons.mp hx with h1 | h2
      · exfalso
        apply dedupBy_not_seen mk t seen d hd
        rw [← hk, h1]
        exact List.elem_iff.mp hc
      · exact ih seen d x hs'.2 hd h2 hk
    · next hc =>
      rcases List.mem_cons.mp hd with hda | hdt
      · subst hda
        rcases List.mem_cons.mp hx with h1 | h2
        · exact h1 ▸ le3_refl _
        · exact hs'.1 x h2
      · have hdk : ¬ mk d ∈ (mk a :: seen) := dedupBy_not_seen mk t _ d hdt
        rcases List.mem_cons.mp hx with h1 | h2
        · exfalso
          exact hdk (by rw [← hk, h1]; exact List.mem_cons_self _ _)
        · exact ih (mk a :: seen) d x hs'.2 hdt h2 hk

/-- The batch exact-match check always writes exactly one row for its
target, whatever the provider response. -/
theorem exactRowsBatch_target (t : String) (r : BResp) :
    ∃ row, row ∈ exactRowsBatch t r ∧ row.target = t := by
  cases r with
  | ok items =>
    cases items with
    | nil => exact ⟨_, List.mem_singleton_self _, rfl⟩
    | cons top rest => exact ⟨_, List.mem_singleton_self _, rfl⟩
  | err code => exact ⟨_, List.mem_singleton_self _, rfl⟩

/-- The batch exact-match loop reaches every target of the pair list: each
target not yet checked gets at least one row. -/
theorem exactLoopBatchAux_covers (provider : String → BResp) :
    ∀ (pairs : List (String × String)) (checked : List String) (t s : String),
      (t, s) ∈ pairs → ¬ t ∈ checked →
      ∃ row, row ∈ exactLoopBatchAux provider pairs checked ∧ row.target = t := by
  intro pairs
  induction pairs with
  | nil => intro checked t s h; simp at h
  | cons p rest ih =>
    intro checked t s hmem hnc
    obtain ⟨t', s'⟩ := p
    simp only [exactLoopBatchAux]
    split
    · next hc =>
      rcases List.mem_cons.mp hmem with h1 | h2
      · exact absurd ((Prod.mk.injEq .. ▸ h1).1 ▸ List.elem_iff.mp hc) hnc
      · exact ih checked t s h2 hnc
    · next hc =>
      by_cases htt : t = t'
      · subst htt
        obtain ⟨row, hrow, hrt⟩ := exactRowsBatch_target t (provider t)
        exact ⟨row, List.mem_append_left _ hrow, hrt⟩
      · rcases List.mem_cons.mp hmem with h1 | h2
        · exact absurd (Prod.mk.injEq .. ▸ h1).1 htt
        · have hnc' : ¬ t ∈ (t' :: checked) := by
            intro h
            rcases List.mem_cons.mp h with h | h
            · exact htt h
            · exact hnc h
          obtain ⟨row, hrow, hrt⟩ := ih (t' :: checked) t s h2 hnc'
          exact ⟨row, List.mem_append_right _ hrow, hrt⟩

/-- Membership through one conditional-append step of the positional
heuristic. -/
theorem mem_addIf (b : Bool) (c x : String) (l : List String) :
    x ∈ addIf b c l ↔ (x ∈ l ∨ (b = true ∧ x = c)) := by
  unfold addIf
  split
  · next hcond =>
    rcases Bool.and_eq_true_iff.mp hcond with ⟨hb, _⟩
    simp [List.mem_append, hb]
  · next hcond =>
    constructor
    · exact Or.inl
    · intro h
      rcases h with h | ⟨hb, hxc⟩
      · exact h
      · subst hxc
        rcases hcontains : l.contains x with _ | _
        · exact absurd (by rw [hb, hcontains]; rfl) hcond
        · exact List.elem_iff.mp hcontains

/-- A conditional-append step preserves distinctness. -/
theorem nodup_addIf (b : Bool) (c : String) (l : List String) (h : l.Nodup) :
    (addIf b c l).Nodup := by
  unfold addIf
  split
  · next hcond =>
    rcases Bool.and_eq_true_iff.mp hcond with ⟨_, hnc⟩
    have hcm : ¬ c ∈ l := by
      intro hmem
      have hcc : l.contains c = true := List.elem_iff.mpr hmem
      rw [hcc] at hnc
      simp at hnc
    simp [List.nodup_append, h, hcm]
  · exact h

/-- C9: class inference is the duplicate-free union of the explicit-mention
pass and the positional pass, always lands inside the configured class set
`{35, 41, 42}`, contributes positional codes only in the presence of the
`position 1` marker, and sets `relevantClassMatch` exactly when the inferred
set meets the target classes of interest. -/
theorem trademark_classes_C9 (d c : String) :
    (c ∈ extract_classes_from_description d ↔
      (c ∈ explicit_classes d ∨ c ∈ positional_classes d)) ∧
    (extract_classes_from_description d).Nodup ∧
    ((extract_classes_from_description d).all
      (fun x => target_class_keys.contains x) = true) ∧
    (positional_classes d = [] ∨ strHas (lowerStr d) "position 1" = true) ∧
    (relevant_class_match (extract_classes_from_description d) = true ↔
      ∃ x, x ∈ extract_classes_from_description d ∧ x ∈ target_class_keys) := by
  have hnodup_explicit : (explicit_classes d).Nodup :=
    List.Nodup.filter _ (by decide)
  have hmem_explicit : ∀ x, x ∈ explicit_classes d → x ∈ target_class_keys :=
    fun x hx => (List.mem_filter.mp hx).1
  have hiff : ∀ x, x ∈ extract_classes_from_description d ↔
      (x ∈ explicit_classes d ∨ x ∈ positional_classes d) := by
    intro x
    unfold extract_classes_from_description positional_classes
    by_cases hd0 : d = ""
    · subst hd0
      have h1 : explicit_classes "" = [] := by decide
      have h2 : strHas (lowerStr "") "position 1" = false := by decide
      simp [h1, h2]
    · simp only [if_neg hd0]
      rcases hp : strHas (lowerStr d) "position 1" with _ | _
      · simp [hp]
      · simp only [hp, if_true, mem_addIf]
        rcases h35 : words35.any (fun w => strHas (lowerStr d) w) with _ | _ <;>
          rcases h41 : words41.any (fun w => strHas (lowerStr d) w) with _ | _ <;>
          rcases h42 : words42.any (fun w => strHas (lowerStr d) w) with _ | _ <;>
          simp [h35, h41, h42] <;> tauto
  have hpos_sub : ∀ x, x ∈ positional_classes d → x ∈ target_class_keys := by
    intro x h
    unfold positional_classes at h
    split at h
    · simp only [List.mem_append] at h
      rcases h with (h | h) | h <;>
        (split at h <;>
          first
          | (simp only [List.mem_singleton] at h; subst h; decide)
          | exact absurd h (List.not_mem_nil x))
    · exact absurd h (List.not_mem_nil x)
  have hall : ∀ x, x ∈ extract_classes_from_description d → x ∈ target_class_keys := by
    intro x hx
    rcases (hiff x).mp hx with h | h
    · exact hmem_explicit x h
    · exact hpos_sub x h
  refine ⟨hiff c, ?_, ?_, ?_, ?_⟩
  · unfold extract_classes_from_description
    by_cases hd0 : d = ""
    · simp [hd0]
    · simp only [if_neg hd0]
      rcases hp : strHas (lowerStr d) "position 1" with _ | _
      · simpa [hp] using hnodup_explicit
      · simp only [hp, if_true]
        exact nodup_addIf _ _ _ (nodup_addIf _ _ _ (nodup_addIf _ _ _ hnodup_explicit))
  · exact List.all_eq_true.mpr fun x hx => List.elem_iff.mpr (hall x hx)
  · unfold positional_classes
    rcases hp : strHas (lowerStr d) "position 1" with _ | _
    · left; simp [hp]
    · right; rfl
  · simp only [relevant_class_match, List.any_eq_true]
    constructor
    · rintro ⟨x, hx, hcont⟩
      exact ⟨x, hx, List.elem_iff.mp hcont⟩
    · rintro ⟨x, hx, hmem⟩
      exact ⟨x, hx, List.elem_iff.mpr hmem⟩

/-- C1: FALSIFIED ON THE CODE (code bug).  The claim demands that a
`NoMatch` or `ProviderError` sentinel row in the EXACT section never yields
a `Blocked` verdict.  Evaluating the dashboards at such sentinel rows:
`trademark_dashboard_fixed.py` returns `Blocked` for a target whose only
EXACT row is the `— API Error 500 —` provider-error sentinel, and
`trademark_dashboard.py` returns `Blocked` even for the `— No matches —`
sentinel (which the fixed variant itself corrects to `Clear`). -/
theorem trademark_verdict_sentinel_C1 :
    verdict_fixed [⟨"MEI", "EXACT", "— API Error 500 —", 0⟩] "MEI" = "❌ Blocked" ∧
    verdict_orig [⟨"MEI", "EXACT", "— No matches —", 0⟩] "MEI" = "❌ Blocked" ∧
    verdict_fixed [⟨"MEI", "EXACT", "— No matches —", 0⟩] "MEI" = "✅ Clear" := by
  exact ⟨rfl, rfl, rfl⟩

/-- C2: the final similarity score of a candidate pair is exactly the
maximum of the three component metrics applied to the case-folded strings,
and is itself within [0,100] whenever each component is. -/
theorem trademark_final_score_C2 (m1 m2 m3 : String → String → Nat) (t c : String) :
    score_candidate m1 m2 m3 t c =
      max (m1 (lowerStr t) (lowerStr c))
        (max (m2 (lowerStr t) (lowerStr c)) (m3 (lowerStr t) (lowerStr c))) ∧
    (m1 (lowerStr t) (lowerStr c) ≤ 100 → m2 (lowerStr t) (lowerStr c) ≤ 100 →
      m3 (lowerStr t) (lowerStr c) ≤ 100 → score_candidate m1 m2 m3 t c ≤ 100) := by
  refine ⟨rfl, ?_⟩
  intro h1 h2 h3
  exact Nat.max_le.mpr ⟨h1, Nat.max_le.mpr ⟨h2, h3⟩⟩

/-- Witness for C2 at concrete component metrics 10, 20, 30. -/
theorem trademark_final_score_C2_witness :
    score_candidate (fun _ _ => 10) (fun _ _ => 20) (fun _ _ => 30) "A" "B" ≤ 100 :=
  (trademark_final_score_C2 (fun _ _ => 10) (fun _ _ => 20) (fun _ _ => 30) "A" "B").2
    (by decide) (by decide) (by decide)

/-- C3 counterexample: a 401 on the first exact check does NOT abort the
batch run.  With the provider answering HTTP 401 to everything, the exact
loop over two targets converts the 401 into an `— API Error 401 —` sentinel
row for the first target and still processes the second target, so entries
for subsequent targets exist. -/
theorem trademark_auth_abort_C3_cex :
    exactLoopBatch (fun _ => BResp.err 401) [("A", "A"), ("B", "B")] =
      [{ target := "A", stem := "EXACT", mark := "— API Error 401 —",
         score := 0, status := "", serial := "" },
       { target := "B", stem := "EXACT", mark := "— API Error 401 —",
         score := 0, status := "", serial := "" }] := by
  decide

/-- C3 as amended: a 401 on an exact check is handled like every other
non-200 status: the loop writes the API-error sentinel row for that target
and continues, so every target of the pair list still receives at least one
row. -/
theorem trademark_auth_abort_C3_amended :
    (∀ (t : String) (c : Nat), exactRowsBatch t (BResp.err c) =
      [{ target := t, stem := "EXACT", mark := "— API Error " ++ toString c ++ " —",
         score := 0, status := "", serial := "" }]) ∧
    (∀ (provider : String → BResp) (pairs : List (String × String)) (t s : String),
      (t, s) ∈ pairs →
      ∃ row, row ∈ exactLoopBatch provider pairs ∧ row.target = t) := by
  refine ⟨fun t c => rfl, ?_⟩
  intro provider pairs t s hmem
  exact exactLoopBatchAux_covers provider pairs [] t s hmem (by simp)

/-- Witness for C3 as amended: the second target of a two-target run whose
provider always answers 401 still receives a row. -/
theorem trademark_auth_abort_C3_amended_witness :
    ∃ row, row ∈ exactLoopBatch (fun _ => BResp.err 401) [("A", "A"), ("B", "B")] ∧
      row.target = "B" :=
  trademark_auth_abort_C3_amended.2 (fun _ => BResp.err 401)
    [("A", "A"), ("B", "B")] "B" "B" (by decide)

/-- C4 counterexample: a non-auth provider failure on a stem search writes
NO report row at all for that attempted pair - the batch script's non-200
branch (lines 119-121) only prints to the console. -/
theorem trademark_pair_row_C4_cex :
    stemRowsBatch (fun _ _ => 0) (fun _ _ => 0) (fun _ _ => 0)
      "THE MOBILE ERA OF INTENT" "INTENT" (BResp.err 500) = [] := by
  rfl

/-- C4 as amended: a provider failure on a stem search emits no row for
that pair in either script variant (the class-aware script also swallows
caught exceptions row-lessly), and the run continues with the remaining
pairs unchanged; only the EXACT check converts a failure into a sentinel
row. -/
theorem trademark_pair_row_C4_amended :
    (∀ (m1 m2 m3 : String → String → Nat) (t s : String) (c : Nat),
      stemRowsBatch m1 m2 m3 t s (BResp.err c) = []) ∧
    (∀ (m1 m2 m3 : String → String → Nat) (t s : String) (c : Nat) (msg : String),
      stemRowsByClass m1 m2 m3 t s (Resp.err c) = [] ∧
      stemRowsByClass m1 m2 m3 t s (Resp.exn msg) = []) ∧
    (∀ (m1 m2 m3 : String → String → Nat) (provider : String → BResp)
      (t s : String) (rest : List (String × String)),
      stemLoopBatch m1 m2 m3 provider ((t, s) :: rest) =
        stemRowsBatch m1 m2 m3 t s (provider s) ++ stemLoopBatch m1 m2 m3 provider rest) ∧
    (∀ (t : String) (c : Nat), exactRowsBatch t (BResp.err c) =
      [{ target := t, stem := "EXACT", mark := "— API Error " ++ toString c ++ " —",
         score := 0, status := "", serial := "" }]) := by
  exact ⟨fun _ _ _ _ _ _ => rfl, fun _ _ _ _ _ _ _ => ⟨rfl, rfl⟩,
    fun _ _ _ _ _ _ _ => rfl, fun _ _ => rfl⟩

/-- C5 counterexample: the class-aware exact-match check emits one row PER
returned candidate, not exactly one from the first candidate: two exact
candidates for `MEI` produce two rows. -/
theorem trademark_exact_first_C5_cex :
    (exactRowsByClass "MEI" (Resp.ok
      [⟨some "MEI", some "LIVE", some "1", none, some ""⟩,
       ⟨some "MEI", some "DEAD", some "2", none, some ""⟩])).length = 2 := by
  rfl

/-- C5 as amended: the batch script emits exactly one Exact row, built from
the first returned candidate with score 100 and stem EXACT; the class-aware
script instead emits one such row per returned candidate, each with score
100 and stem EXACT. -/
theorem trademark_exact_first_C5_amended (t : String) (e : Entry) (rest : List Entry) :
    exactRowsBatch t (BResp.ok (e :: rest)) =
      [{ target := t, stem := "EXACT", mark := e.keyword.getD "— Exact match —",
         score := 100, status := e.statusLabel.getD "", serial := e.serialNumber.getD "" }] ∧
    exactRowsByClass t (Resp.ok (e :: rest)) = (e :: rest).map (exactRowByClass t) ∧
    (exactRowByClass t e).score = 100 ∧ (exactRowByClass t e).stem = "EXACT" := by
  exact ⟨rfl, rfl, rfl, rfl⟩

/-- C6: for every hit list of a pair, after the composite-key sort and the
first-wins dedup by mark text, every mark present in the hits has exactly
one surviving entry; the survivor comes from the hit list and its composite
key `(final score, relevantClassMatch, domainRelevant)` dominates the key
of every hit sharing its mark text. -/
theorem trademark_sort_dedup_C6 (hits : List Match) (e : Match) (he : e ∈ hits) :
    ∃ d, d ∈ dedupedMatches hits ∧ d ∈ hits ∧ d.mark = e.mark ∧
      (∀ x ∈ hits, x.mark = e.mark → le3 (compositeKey x) (compositeKey d) = true) ∧
      (dedupedMatches hits).countP (fun x => x.mark == e.mark) = 1 := by
  have hperm := List.perm_insertionSort (keyRel compositeKey) hits
  have hes : e ∈ List.insertionSort (keyRel compositeKey) hits := hperm.mem_iff.mpr he
  obtain ⟨d, hd, hmk⟩ :=
    exists_dedupBy (fun m => m.mark) (List.insertionSort (keyRel compositeKey) hits) [] e
      hes (by simp)
  refine ⟨d, hd, ?_, hmk, ?_, ?_⟩
  · exact hperm.mem_iff.mp
      (mem_of_mem_dedupBy (fun m => m.mark) _ [] d hd)
  · intro x hx hxm
    have hxs : x ∈ List.insertionSort (keyRel compositeKey) hits := hperm.mem_iff.mpr hx
    exact dedupBy_dominates (fun m => m.mark) compositeKey _ [] d x
      (List.sorted_insertionSort _ hits) hd hxs (hxm.trans hmk.symm)
  · exact countP_dedupBy_one (fun m => m.mark) e.mark _ [] (by simp) ⟨e, hes, rfl⟩

/-- Witness for C6: a pair of equal-mark hits with different scores. -/
theorem trademark_sort_dedup_C6_witness :
    ∃ d, d ∈ dedupedMatches
        [⟨"FOO", 80, "LIVE", "1", "", [], false, false, ""⟩,
         ⟨"FOO", 90, "LIVE", "2", "", [], false, false, ""⟩] ∧
      d ∈ [⟨"FOO", 80, "LIVE", "1", "", [], false, false, ""⟩,
           (⟨"FOO", 90, "LIVE", "2", "", [], false, false, ""⟩ : Match)] ∧
      d.mark = Match.mark ⟨"FOO", 80, "LIVE", "1", "", [], false, false, ""⟩ ∧
      (∀ x ∈ [⟨"FOO", 80, "LIVE", "1", "", [], false, false, ""⟩,
              (⟨"FOO", 90, "LIVE", "2", "", [], false, false, ""⟩ : Match)],
        x.mark = Match.mark ⟨"FOO", 80, "LIVE", "1", "", [], false, false, ""⟩ →
        le3 (compositeKey x) (compositeKey d) = true) ∧
      (dedupedMatches
          [⟨"FOO", 80, "LIVE", "1", "", [], false, false, ""⟩,
           ⟨"FOO", 90, "LIVE", "2", "", [], false, false, ""⟩]).countP
        (fun x => x.mark == Match.mark ⟨"FOO", 80, "LIVE", "1", "", [], false, false, ""⟩) = 1 :=
  trademark_sort_dedup_C6
    [⟨"FOO", 80, "LIVE", "1", "", [], false, false, ""⟩,
     ⟨"FOO", 90, "LIVE", "2", "", [], false, false, ""⟩]
    ⟨"FOO", 80, "LIVE", "1", "", [], false, false, ""⟩ (by simp)

/-- C7 counterexample: the merged output of a pair is NOT always unique per
(target, stem, markText).  Two identical below-threshold candidates with
mark `FOO` (constant metrics give score 50 < 75) both land in the top-10
section: the `existing_keywords` check compares only against the fuzzy
hits and is never updated while the top-K rows are written. -/
theorem trademark_unique_mark_C7_cex :
    ¬ (((stemRowsOk (fun _ _ => 50) (fun _ _ => 50) (fun _ _ => 50) "T" "S"
        [⟨some "FOO", some "LIVE", some "1", none, some ""⟩,
         ⟨some "FOO", some "LIVE", some "2", none, some ""⟩]).map
          (fun r => (r.target, r.stem, r.mark))).Nodup) := by
  decide

/-- C7 as amended: the deduplicated hit rows are unique per mark text, and
no top-K row ever repeats the mark of a hit row (hit marks are exactly the
`existing_keywords` the top-K filter checks); only top-K rows themselves may
repeat a mark, when the unfiltered candidate list contains below-threshold
duplicates. -/
theorem trademark_unique_mark_C7_amended (fuzzyAll : List Match) :
    ((dedupedMatches (fuzzyHitsOf fuzzyAll)).map (fun m => m.mark)).Nodup ∧
    (topEmitted fuzzyAll (fuzzyHitsOf fuzzyAll)).all
      (fun t => !(((dedupedMatches (fuzzyHitsOf fuzzyAll)).map
        (fun m : Match => m.mark)).contains t.mark)) = true := by
  constructor
  · exact dedupBy_keys_nodup (fun m : Match => m.mark) _ []
  · apply List.all_eq_true.mpr
    intro t ht
    have htf := List.mem_filter.mp ht
    simp only [Bool.not_eq_true'] at htf ⊢
    rcases htf with ⟨_, hnot⟩
    rcases hcontains : ((dedupedMatches (fuzzyHitsOf fuzzyAll)).map
        (fun m : Match => m.mark)).contains t.mark with _ | _
    · rfl
    · exfalso
      obtain ⟨d, hd, hdk⟩ := List.mem_map.mp (List.elem_iff.mp hcontains)
      have hd' : d ∈ dedupBy (fun m : Match => m.mark)
          (List.insertionSort (keyRel compositeKey) (fuzzyHitsOf fuzzyAll)) [] := hd
      have hdh : d ∈ fuzzyHitsOf fuzzyAll :=
        (List.perm_insertionSort (keyRel compositeKey) _).mem_iff.mp
          (mem_of_mem_dedupBy (fun m : Match => m.mark) _ [] d hd')
      have : ((fuzzyHitsOf fuzzyAll).map (fun h => h.mark)).contains t.mark = true :=
        List.elem_iff.mpr (List.mem_map.mpr ⟨d, hdh, hdk⟩)
      rw [hnot] at this
      exact Bool.false_ne_true this

/-- C8: a scored candidate is classified as a fuzzy hit exactly when its
final score is greater than or equal to the threshold 75, and the boundary
score 75 itself is a hit (the comparison is inclusive). -/
theorem trademark_threshold_C8 (l : List Match) (m : Match) :
    FUZZY_THRESHOLD = 75 ∧
    (m ∈ fuzzyHitsOf l ↔ m ∈ l ∧ FUZZY_THRESHOLD ≤ m.score) ∧
    (m.score = 75 → isHit m = true) := by
  refine ⟨rfl, ?_, ?_⟩
  · simp [fuzzyHitsOf, isHit, List.mem_filter]
  · intro h
    simp [isHit, h, FUZZY_THRESHOLD]

/-- Witness for C8: a candidate scored exactly 75 is a hit. -/
theorem trademark_threshold_C8_witness :
    isHit ⟨"LEAP", 75, "LIVE", "1", "", [], false, false, ""⟩ = true :=
  (trademark_threshold_C8 [] ⟨"LEAP", 75, "LIVE", "1", "", [], false, false, ""⟩).2.2 rfl

/-- C10: the class-aware stem search truncates the provider response to its
first `MAX_RESULTS_PER_SEARCH = 50` items before scoring, so the pair's
entire report output is a function of the first 50 candidates alone - a
candidate past position 50 can never contribute a row. -/
theorem trademark_limit_C10 (m1 m2 m3 : String → String → Nat) (t s : String)
    (results : List Entry) :
    MAX_RESULTS_PER_SEARCH = 50 ∧
    limitResults results = results.take MAX_RESULTS_PER_SEARCH ∧
    stemRowsOk m1 m2 m3 t s results =
      stemRowsOk m1 m2 m3 t s (results.take MAX_RESULTS_PER_SEARCH) := by
  have hl : ∀ (l : List Entry), limitResults l = l.take MAX_RESULTS_PER_SEARCH := by
    intro l
    unfold limitResults
    rcases l with _ | ⟨a, t'⟩
    · simp
    · simp only [List.isEmpty_cons, Bool.not_false, Bool.true_and]
      split
      · rfl
      · next h =>
        simp only [decide_eq_true_eq, MAX_RESULTS_PER_SEARCH] at h
        rw [List.take_of_length_le]
        simp only [MAX_RESULTS_PER_SEARCH]
        omega
  refine ⟨rfl, hl results, ?_⟩
  unfold stemRowsOk
  rw [hl results, hl (results.take MAX_RESULTS_PER_SEARCH), List.take_take,
    Nat.min_self]

end Uspto
